import Mathlib

/-!
Shallow embedding of the number-region extraction pipeline of
`src/extractor/utils.py` (class `NumberRegionExtractor` and the module-level
entry point `extract_number_regions_from_image`).

Conventions of the embedding:
* Pixel coordinates and box dimensions are `Int` (the Python values are ints).
* Confidences, overlap thresholds and ratios are `Rat` (Python floats used
  only through comparisons, `+`, `*`, `/`, `abs` and `sqrt`; the single
  square root `np.sqrt(d) < 50` is embedded as `d < 50 ^ 2`, and
  `np.std(region) < 15` as `variance < 225`, both equivalences over
  non-negative reals).
* A Python detection dict is the structure `Detection`; the optional
  `'source'` key is `Option String` (`none` when the dict has no such key,
  as in the dicts built by `merge_two_regions` and `extract_number_regions`).
* The image-processing detectors (OCR, contours, templates, ...) call into
  OpenCV / pytesseract; their raw outputs are inputs of the embedded
  pipeline (`LoadedImage` carries one detection pool per detector), while
  every piece of pure Python logic downstream of those library calls is
  translated directly.
-/

-- Core marks these rational operations `[irreducible]`, which blocks
-- evaluation of concrete instances of the embedded functions; restore the
-- default reducibility for this development.
attribute [local semireducible] Rat.mul Rat.add Rat.sub Rat.inv

/-- A detection dict as built throughout `src/extractor/utils.py`:
keys `x`, `y`, `width`, `height`, `confidence`, `text` and (on every raw
detector output, but not on merged dicts) `source`. -/
structure Detection where
  x : Int
  y : Int
  width : Int
  height : Int
  confidence : Rat
  text : String
  source : Option String
  deriving DecidableEq

/-- Python `str.strip()`: drop leading and trailing whitespace. -/
def pyStrip (s : String) : String :=
  String.mk (((s.data.dropWhile Char.isWhitespace).reverse.dropWhile
    Char.isWhitespace).reverse)

/-- The overlap ratio used by the spec and by `regions_overlap`
(utils.py:543-563): intersection area divided by the smaller of the two box
areas, `0` when the boxes have no positive-area intersection. -/
def overlapRatio (region1 region2 : Detection) : Rat :=
  let left := max region1.x region2.x
  let top := max region1.y region2.y
  let right := min (region1.x + region1.width) (region2.x + region2.width)
  let bottom := min (region1.y + region1.height) (region2.y + region2.height)
  if right ≤ left ∨ bottom ≤ top then 0
  else
    (((right - left) * (bottom - top) : Int) : Rat) /
      min ((region1.width * region1.height : Int) : Rat)
        ((region2.width * region2.height : Int) : Rat)

/-- `NumberRegionExtractor.regions_overlap` (utils.py:543-563). -/
def regions_overlap (region1 region2 : Detection) (threshold : Rat) : Bool :=
  let left := max region1.x region2.x
  let top := max region1.y region2.y
  let right := min (region1.x + region1.width) (region2.x + region2.width)
  let bottom := min (region1.y + region1.height) (region2.y + region2.height)
  if right ≤ left ∨ bottom ≤ top then false
  else
    decide (threshold <
      (((right - left) * (bottom - top) : Int) : Rat) /
        min ((region1.width * region1.height : Int) : Rat)
          ((region2.width * region2.height : Int) : Rat))

/-- `NumberRegionExtractor.regions_nearby` (utils.py:442-457); the call in
the merge loop uses the default `distance_threshold=50`.  The Python code
compares `np.sqrt(dx^2 + dy^2) < distance_threshold`; with a non-negative
threshold this is equivalent to `dx^2 + dy^2 < distance_threshold^2`, which
is how the distance test is embedded. -/
def regions_nearby (region1 region2 : Detection) (distance_threshold : Rat) : Bool :=
  let center1x : Rat := (region1.x : Rat) + (region1.width : Rat) / 2
  let center1y : Rat := (region1.y : Rat) + (region1.height : Rat) / 2
  let center2x : Rat := (region2.x : Rat) + (region2.width : Rat) / 2
  let center2y : Rat := (region2.y : Rat) + (region2.height : Rat) / 2
  let distSq : Rat := (center1x - center2x) ^ 2 + (center1y - center2y) ^ 2
  let verticalAlignment : Prop :=
    |center1y - center2y| < ((max region1.height region2.height : Int) : Rat) * (4/5)
  decide (distSq < distance_threshold ^ 2) && decide verticalAlignment

/-- `NumberRegionExtractor.merge_two_regions` (utils.py:565-583): union
bounding box, maximum confidence, texts joined by a space and stripped
(`f"{t1} {t2}".strip()`).  The returned dict has no `'source'` key. -/
def merge_two_regions (region1 region2 : Detection) : Detection :=
  let left := min region1.x region2.x
  let top := min region1.y region2.y
  let right := max (region1.x + region1.width) (region2.x + region2.width)
  let bottom := max (region1.y + region1.height) (region2.y + region2.height)
  { x := left
    y := top
    width := right - left
    height := bottom - top
    confidence := max region1.confidence region2.confidence
    text := pyStrip (region1.text ++ " " ++ region2.text)
    source := none }

/-- Descending lexicographic order on the Python sort key
`(confidence, width*height)` (utils.py:416, `reverse=True`). -/
def sortKeyGE (d1 d2 : Detection) : Prop :=
  d2.confidence < d1.confidence ∨
    (d1.confidence = d2.confidence ∧ d2.width * d2.height ≤ d1.width * d1.height)

instance : DecidableRel sortKeyGE := fun d1 d2 => by
  unfold sortKeyGE; infer_instance

instance : IsTotal Detection sortKeyGE := by
  constructor
  intro a b
  unfold sortKeyGE
  rcases lt_trichotomy a.confidence b.confidence with h | h | h
  · exact Or.inr (Or.inl h)
  · rcases le_total (b.width * b.height) (a.width * a.height) with hw | hw
    · exact Or.inl (Or.inr ⟨h, hw⟩)
    · exact Or.inr (Or.inr ⟨h.symm, hw⟩)
  · exact Or.inl (Or.inl h)

instance : IsTrans Detection sortKeyGE := by
  constructor
  intro a b c hab hbc
  unfold sortKeyGE at *
  rcases hab with hab | ⟨hab, hab2⟩ <;> rcases hbc with hbc | ⟨hbc, hbc2⟩
  · exact Or.inl (hbc.trans hab)
  · exact Or.inl (hbc ▸ hab)
  · exact Or.inl (hab ▸ hbc)
  · exact Or.inr ⟨hab.trans hbc, hbc2.trans hab2⟩

/-- The in-place `detections.sort(key=lambda x: (confidence, w*h), reverse=True)`
of utils.py:416.  Python's sort is a stable descending sort; a stable sort of
a list under a fixed total preorder is unique, and `List.insertionSort` under
the total preorder `sortKeyGE` is stable, so it computes the same list. -/
def sortDetections (l : List Detection) : List Detection :=
  l.insertionSort sortKeyGE

/-- The inner loop of `merge_overlapping_regions` (utils.py:429-436): scan the
not-yet-used later detections in order, absorbing into the growing
`current_region` every one that overlaps it above the threshold or is nearby;
return the final region together with the detections left unused. -/
def absorbAll (cur : Detection) (t : Rat) : List Detection → Detection × List Detection
  | [] => (cur, [])
  | d :: ds =>
    if regions_overlap cur d t || regions_nearby cur d 50 then
      absorbAll (merge_two_regions cur d) t ds
    else
      let r := absorbAll cur t ds
      (r.1, d :: r.2)

/-- The outer loop of `merge_overlapping_regions` (utils.py:421-438): take the
next unused detection as a seed and absorb into it.  Fuel-indexed so that the
definition is structurally recursive; `absorbAll` never lengthens the list of
unused detections, so fuel equal to the list length always suffices. -/
def greedyMergeFuel (t : Rat) : Nat → List Detection → List Detection
  | 0, _ => []
  | _ + 1, [] => []
  | fuel + 1, d :: ds =>
    let r := absorbAll d t ds
    r.1 :: greedyMergeFuel t fuel r.2

/-- `NumberRegionExtractor.merge_overlapping_regions` (utils.py:410-440). -/
def merge_overlapping_regions (detections : List Detection) (overlap_threshold : Rat) :
    List Detection :=
  greedyMergeFuel overlap_threshold (sortDetections detections).length
    (sortDetections detections)

/-- `NumberRegionExtractor.crop_number_region` (utils.py:585-606), with the
pixel copy abstracted to the clamped crop rectangle `(x, y, w, h)`; returns
`none` exactly when the clamped size collapses to `≤ 0`. -/
def crop_number_region (img_width img_height : Int) (detection : Detection) :
    Option (Int × Int × Int × Int) :=
  let x := max 0 (min detection.x (img_width - 1))
  let y := max 0 (min detection.y (img_height - 1))
  let w := min detection.width (img_width - x)
  let h := min detection.height (img_height - y)
  if w ≤ 0 ∨ h ≤ 0 then none
  else some (x, y, w, h)

/-- A successfully decoded image, together with the raw detection pools that
the OpenCV/pytesseract-backed detectors produced for it (the pure-Python
pipeline downstream of those library calls is what is embedded).  The pools
appear in the order `detect_number_regions` appends them (utils.py:100-146):
tagged OCR detections, contour, template, handwritten, then — only on the
fallback path — text-like and grid-sampling detections. -/
structure LoadedImage where
  width : Int
  height : Int
  ocrPool : List Detection
  contourPool : List Detection
  templatePool : List Detection
  handwrittenPool : List Detection
  textLikePool : List Detection
  gridPool : List Detection

/-- The raw pool `all_detections` right before the first merge
(utils.py:97-129). -/
def primaryPool (img : LoadedImage) : List Detection :=
  img.ocrPool ++ img.contourPool ++ img.templatePool ++ img.handwrittenPool

/-- Lines 131-151 of utils.py: first merge at threshold `0.2`; if it comes
back empty, extend the pool with the two fallback detectors' output and
re-merge everything at threshold `0.1`.  (The Python list is sorted in place
by the first merge before being extended; since the re-merge begins with the
same stable sort, this is observably identical to merging the pools in their
original order, which is how it is written here.) -/
def mergedDetections (img : LoadedImage) : List Detection :=
  let merged := merge_overlapping_regions (primaryPool img) (1/5)
  if merged.isEmpty then
    merge_overlapping_regions (primaryPool img ++ img.textLikePool ++ img.gridPool) (1/10)
  else merged

/-- One element of the `cropped_regions` result list (utils.py:154-169). -/
structure CroppedRegion where
  rect : Int × Int × Int × Int
  bbox : Detection
  index : Nat
  confidence : Rat
  deriving DecidableEq

/-- The crop loop of utils.py:154-169 (`for i, detection in enumerate(...)`):
regions whose crop collapses are skipped, but keep their enumeration index. -/
def cropAll (img_width img_height : Int) (merged : List Detection) :
    List CroppedRegion :=
  merged.enum.filterMap fun p =>
    (crop_number_region img_width img_height p.2).map fun r =>
      { rect := r, bbox := p.2, index := p.1, confidence := p.2.confidence }

/-- `NumberRegionExtractor.detect_number_regions` (utils.py:85-169).
`cv2.imread` returning `None` for an undecodable image is the `none` case,
where the method raises `ValueError("Could not read image")`. -/
def detect_number_regions (img : Option LoadedImage) :
    Except String (List CroppedRegion) :=
  match img with
  | none => Except.error "Could not read image"
  | some image =>
    Except.ok (cropAll image.width image.height (mergedDetections image))

/-- The module-level entry point `extract_number_regions_from_image`
(utils.py:621-639): every exception from detection is caught and turned into
an empty result list. -/
def extract_number_regions_from_image (img : Option LoadedImage) :
    List CroppedRegion :=
  match detect_number_regions img with
  | Except.ok regions => regions
  | Except.error _ => []

/-- One word-level result row of the `pytesseract.image_to_data` dict
(parallel arrays `text`, `conf`, `left`, `top`, `width`, `height`, indexed
together in `extract_number_regions`). -/
structure OcrRow where
  text : String
  conf : Rat
  left : Int
  top : Int
  width : Int
  height : Int

/-- The character class `'lI|!oO()[]{}'` of utils.py:378 ("characters often
confused with numbers"). -/
def digit_confusables : String := "lI|!oO()[]\x7b\x7d"

/-- The symbol list of utils.py:382; the fourth and fifth entries are the
source file's literal (mojibake) bytes for multiplication and division
signs, and Python's `symbol in text` is substring containment. -/
def math_symbols : List String :=
  ["+", "-", "=", "ร\u0097", "รท", "*", "/", ".", ","]

/-- The `has_numbers` predicate of utils.py:373-379: a digit (queried three
redundant ways — `re.search(r'\d',..)`, `re.search(r'[0-9]',..)`,
`char.isdigit()` — each embedded as `Char.isDigit`) or an OCR-confusable
character. -/
def has_numbers (text : String) : Bool :=
  text.data.any Char.isDigit || text.data.any Char.isDigit ||
    text.data.any Char.isDigit ||
    text.data.any fun c => digit_confusables.data.contains c

/-- The `has_math_symbols` predicate of utils.py:382. -/
def has_math_symbols (text : String) : Bool :=
  math_symbols.any fun s => decide (s.data <:+: text.data)

/-- The body of the per-result loop of
`NumberRegionExtractor.extract_number_regions` (utils.py:364-406): strip the
text, drop the row when the confidence is below the threshold or the text is
empty, keep it only when it looks numeric, pad by 15px clamped to the image,
and require the padded box to be strictly larger than 10 in both dimensions.
The appended dict has no `'source'` key (the caller adds one later). -/
def processOcrRow (height width : Int) (confidence_threshold : Rat)
    (row : OcrRow) : Option Detection :=
  let text := pyStrip row.text
  if row.conf < confidence_threshold ∨ text = "" then none
  else if has_numbers text || has_math_symbols text then
    let x := max 0 (row.left - 15)
    let y := max 0 (row.top - 15)
    let w := min (width - x) (row.width + 2 * 15)
    let h := min (height - y) (row.height + 2 * 15)
    if 10 < w ∧ 10 < h then
      some { x := x, y := y, width := w, height := h,
             confidence := row.conf, text := text, source := none }
    else none
  else none

/-- `NumberRegionExtractor.extract_number_regions` (utils.py:358-408):
the loop over the OCR result rows, appending the survivors in order. -/
def extract_number_regions (height width : Int) (confidence_threshold : Rat) :
    List OcrRow → List Detection
  | [] => []
  | row :: rest =>
    match processOcrRow height width confidence_threshold row with
    | some d => d :: extract_number_regions height width confidence_threshold rest
    | none => extract_number_regions height width confidence_threshold rest

/-- `np.sum` of a grayscale patch, the patch flattened to a pixel list. -/
def pixelSum (region : List Nat) : Nat :=
  region.foldl (· + ·) 0

/-- `np.mean` of a grayscale patch. -/
def pixelMean (region : List Nat) : Rat :=
  ((pixelSum region : Nat) : Rat) / ((region.length : Nat) : Rat)

/-- The population variance `np.std(region) ** 2`; utils.py:309 compares
`np.std(region) < 15`, embedded as `pixelVariance region < 225` (equivalent
since both sides of the original comparison are non-negative). -/
def pixelVariance (region : List Nat) : Rat :=
  ((region.map fun p => ((p : Rat) - pixelMean region) ^ 2).foldl (· + ·) 0) /
    ((region.length : Nat) : Rat)

/-- `np.sum(region < 128) / (width * height)` of utils.py:304. -/
def darkPixelRatio (region : List Nat) (width height : Int) : Rat :=
  ((region.countP fun p => p < 128 : Nat) : Rat) / ((width * height : Int) : Rat)

/-- `NumberRegionExtractor.is_potential_number_region` (utils.py:289-312),
the acceptance filter of the Handwritten Detector; `region` is the grayscale
patch `gray_clean[y:y+h, x:x+w]` flattened, `area` is `cv2.contourArea`. -/
def is_potential_number_region (region : List Nat) (width height : Int)
    (area : Rat) : Bool :=
  if width < 15 ∨ height < 15 ∨ 500 < width ∨ 100 < height then false
  else if area < 100 ∨ 5000 < area then false
  else
    let aspect_ratio : Rat := (width : Rat) / (height : Rat)
    if aspect_ratio < 1/5 ∨ 8 < aspect_ratio then false
    else
      let dark_pixel_ratio := darkPixelRatio region width height
      if dark_pixel_ratio < 1/20 ∨ 4/5 < dark_pixel_ratio then false
      else if pixelVariance region < 225 then false
      else true

/-- The per-match-location body of `detect_by_templates` (utils.py:333-353):
pad the template-sized box by 10px clamped to image bounds and keep the
candidate only when both padded dimensions are strictly greater than 20;
kept candidates get fixed confidence 30 and `source = "template"`. -/
def templateCandidate (img_width img_height tw th x0 y0 : Int) :
    Option Detection :=
  let x := max 0 (x0 - 10)
  let y := max 0 (y0 - 10)
  let w := min (img_width - x) (tw + 2 * 10)
  let h := min (img_height - y) (th + 2 * 10)
  if 20 < w ∧ 20 < h then
    some { x := x, y := y, width := w, height := h,
           confidence := 30, text := "template_match", source := some "template" }
  else none

/-- `NumberRegionExtractor.detect_by_templates` for one template of size
`(th, tw)` (utils.py:328-353): the normalized cross-correlation scores are
inputs (`matches` lists `(x, y, score)` in the iteration order of
`zip(*np.where(result >= 0.1)[::-1])`); only locations whose score reaches
`0.1` are processed. -/
def detect_by_template_matches (img_width img_height tw th : Int)
    (matchList : List (Int × Int × Rat)) : List Detection :=
  matchList.filterMap fun m =>
    if (1:Rat)/10 ≤ m.2.2 then
      templateCandidate img_width img_height tw th m.1 m.2.1
    else none

/-- The outer template loop of `detect_by_templates` (utils.py:320-355):
concatenate the per-template detections (a per-template failure of
`cv2.matchTemplate` is caught and contributes the empty list, i.e. an absent
entry of `templates`). -/
def detect_by_templates (img_width img_height : Int)
    (templates : List (Int × Int × List (Int × Int × Rat))) : List Detection :=
  (templates.map fun tpl =>
    detect_by_template_matches img_width img_height tpl.1 tpl.2.1 tpl.2.2).flatten

/-- First character exists and is not whitespace (used to reason about
`str.strip` of concatenations). -/
def firstCharSolid (s : String) : Bool :=
  match s.data with
  | [] => false
  | c :: _ => !c.isWhitespace

/-- Last character exists and is not whitespace. -/
def lastCharSolid (s : String) : Bool :=
  match s.data.getLast? with
  | none => false
  | some c => !c.isWhitespace

/-- The spec invariant on an output bounding box: fully contained in the
parent image with positive dimensions. -/
def inBounds (img_width img_height : Int) (d : Detection) : Prop :=
  0 ≤ d.x ∧ 0 ≤ d.y ∧ d.x + d.width ≤ img_width ∧ d.y + d.height ≤ img_height ∧
    0 < d.width ∧ 0 < d.height

instance (img_width img_height : Int) (d : Detection) :
    Decidable (inBounds img_width img_height d) := by
  unfold inBounds; infer_instance

/-- A concrete 15x16 grayscale patch: half the pixels at intensity 120, half
at 150.  Its mean is 135, its dark-pixel fraction is exactly 1/2 and its
population variance is exactly 225 (standard deviation exactly 15). -/
def hwRegion : List Nat :=
  List.replicate 120 120 ++ List.replicate 120 150

/-! Concrete inputs used by the witness theorems below. -/

/-- A contour-detector detection well inside a 100x100 image. -/
def contourDetection0 : Detection :=
  { x := 10, y := 10, width := 30, height := 20, confidence := 50,
    text := "contour_detected", source := some "contour" }

/-- An image whose contour pool alone already yields a non-empty first-pass
canonical set. -/
def imgA : LoadedImage :=
  { width := 100, height := 100, ocrPool := [], contourPool := [contourDetection0],
    templatePool := [], handwrittenPool := [], textLikePool := [], gridPool := [] }

/-- A text-like fallback detection. -/
def tlDetection0 : Detection :=
  { x := 0, y := 0, width := 40, height := 40, confidence := 25,
    text := "text_like_region", source := some "text_fallback" }

/-- A grid-sampling fallback detection. -/
def grDetection0 : Detection :=
  { x := 0, y := 50, width := 100, height := 100, confidence := 20,
    text := "grid_sampled", source := some "grid_sampling" }

/-- Two overlapping raw detections (overlap ratio 1/2). -/
def dA : Detection :=
  { x := 0, y := 0, width := 10, height := 10, confidence := 60,
    text := "1", source := some "otsu_--oem 3 -" }

/-- See `dA`. -/
def dB : Detection :=
  { x := 5, y := 0, width := 10, height := 10, confidence := 40,
    text := "2", source := some "contour" }

/-- Two far-apart detections, already in descending key order. -/
def cW1 : Detection :=
  { x := 0, y := 0, width := 10, height := 10, confidence := 90,
    text := "7", source := some "clahe_--oem 3 -" }

/-- See `cW1`. -/
def cW2 : Detection :=
  { x := 200, y := 0, width := 10, height := 10, confidence := 30,
    text := "8", source := some "template" }

/-- Two far-apart detections, already in descending key order. -/
def cV1 : Detection :=
  { x := 0, y := 300, width := 12, height := 12, confidence := 80,
    text := "5", source := some "original_--oem 3" }

/-- See `cV1`. -/
def cV2 : Detection :=
  { x := 400, y := 300, width := 12, height := 12, confidence := 35,
    text := "6", source := some "handwritten" }

/-- A detection whose text starts with a non-whitespace character. -/
def cT1 : Detection :=
  { x := 0, y := 0, width := 20, height := 20, confidence := 70,
    text := "7", source := some "otsu_inv_--oem 3" }

/-- A detection whose text ends with a non-whitespace character. -/
def cT2 : Detection :=
  { x := 10, y := 0, width := 20, height := 20, confidence := 55,
    text := "42", source := some "unsharp_--oem 1" }

/-- An in-bounds OCR detection inside a 100x100 image. -/
def dOCR : Detection :=
  { x := 5, y := 5, width := 20, height := 20, confidence := 60,
    text := "12", source := some "original_--oem 3" }

/-- An image whose only raw detection is `dOCR`. -/
def imgB : LoadedImage :=
  { width := 100, height := 100, ocrPool := [dOCR], contourPool := [],
    templatePool := [], handwrittenPool := [], textLikePool := [], gridPool := [] }

/-- The single output region the pipeline produces for `imgB`. -/
def cRegionB : CroppedRegion :=
  { rect := (5, 5, 20, 20), bbox := dOCR, index := 0, confidence := 60 }

/-! ## Helper lemmas -/

theorem pyStrip_append_of_solid (a b : String)
    (ha : firstCharSolid a = true) (hb : lastCharSolid b = true) :
    pyStrip (a ++ " " ++ b) = a ++ " " ++ b := by
  unfold firstCharSolid at ha
  unfold lastCharSolid at hb
  obtain ⟨c, cs, hcs⟩ : ∃ c cs, a.data = c :: cs := by
    cases h : a.data with
    | nil => rw [h] at ha; simp at ha
    | cons c cs => exact ⟨c, cs, rfl⟩
  obtain ⟨c2, hc2⟩ : ∃ c2, b.data.getLast? = some c2 := by
    cases h : b.data.getLast? with
    | none => rw [h] at hb; simp at hb
    | some c2 => exact ⟨c2, rfl⟩
  rw [hcs] at ha
  rw [hc2] at hb
  simp only [Bool.not_eq_true'] at ha hb
  obtain ⟨binit, hbinit⟩ := List.getLast?_eq_some_iff.mp hc2
  have hdata : (a ++ " " ++ b).data = c :: (cs ++ ' ' :: binit ++ [c2]) := by
    rw [String.data_append, String.data_append, hcs, hbinit]
    simp
  unfold pyStrip
  rw [hdata]
  rw [List.dropWhile_cons, ha]
  simp only [if_false, Bool.false_eq_true]
  have hshape : c :: (cs ++ ' ' :: binit ++ [c2])
      = (c :: (cs ++ ' ' :: binit)) ++ [c2] := by
    simp
  have hrever : ((c :: (cs ++ ' ' :: binit)) ++ [c2]).reverse
      = c2 :: (c :: (cs ++ ' ' :: binit)).reverse := by
    simp
  rw [hshape, hrever, List.dropWhile_cons, hb]
  simp only [if_false, Bool.false_eq_true]
  rw [← hrever, ← hshape, List.reverse_reverse, ← hdata]

theorem overlapRatio_le_of_not_overlap (r1 r2 : Detection) (t : Rat)
    (ht : 0 ≤ t) (h : regions_overlap r1 r2 t = false) :
    overlapRatio r1 r2 ≤ t := by
  unfold regions_overlap at h
  unfold overlapRatio
  by_cases hd : min (r1.x + r1.width) (r2.x + r2.width) ≤ max r1.x r2.x ∨
      min (r1.y + r1.height) (r2.y + r2.height) ≤ max r1.y r2.y
  · simp only [hd, if_true]
    exact ht
  · simp only [hd, if_false] at h ⊢
    simp only [decide_eq_false_iff_not, not_lt] at h
    exact h

theorem overlapRatio_comm (r1 r2 : Detection) :
    overlapRatio r1 r2 = overlapRatio r2 r1 := by
  unfold overlapRatio
  rw [max_comm r1.x r2.x, max_comm r1.y r2.y,
    min_comm (r1.x + r1.width) (r2.x + r2.width),
    min_comm (r1.y + r1.height) (r2.y + r2.height),
    min_comm ((r1.width * r1.height : Int) : Rat) ((r2.width * r2.height : Int) : Rat)]

theorem absorbAll_of_no_match (t : Rat) (cur : Detection) (ds : List Detection)
    (h : ∀ d ∈ ds, (regions_overlap cur d t || regions_nearby cur d 50) = false) :
    absorbAll cur t ds = (cur, ds) := by
  induction ds with
  | nil => rfl
  | cons d ds ih =>
    unfold absorbAll
    rw [h d (List.mem_cons_self d ds)]
    simp only [Bool.false_eq_true, if_false]
    rw [ih fun x hx => h x (List.mem_cons_of_mem d hx)]

theorem absorbAll_sub (t : Rat) (cur : Detection) (ds : List Detection) :
    (absorbAll cur t ds).2 ⊆ ds := by
  induction ds generalizing cur with
  | nil => simp [absorbAll]
  | cons d ds ih =>
    unfold absorbAll
    by_cases h : (regions_overlap cur d t || regions_nearby cur d 50) = true
    · rw [if_pos h]
      exact (ih (merge_two_regions cur d)).trans (List.subset_cons_self d ds)
    · rw [if_neg h]
      exact List.cons_subset_cons d (ih cur)

theorem absorbAll_fst_eq_or_sourceless (t : Rat) (cur : Detection)
    (ds : List Detection) :
    (absorbAll cur t ds).1 = cur ∨ (absorbAll cur t ds).1.source = none := by
  induction ds generalizing cur with
  | nil => exact Or.inl rfl
  | cons d ds ih =>
    unfold absorbAll
    by_cases h : (regions_overlap cur d t || regions_nearby cur d 50) = true
    · rw [if_pos h]
      rcases ih (merge_two_regions cur d) with heq | hsrc
      · exact Or.inr (by rw [heq]; rfl)
      · exact Or.inr hsrc
    · rw [if_neg h]
      exact ih cur

theorem absorbAll_preserves (P : Detection → Prop)
    (hP : ∀ r1 r2, P r1 → P r2 → P (merge_two_regions r1 r2))
    (t : Rat) (cur : Detection) (ds : List Detection)
    (hcur : P cur) (hds : ∀ d ∈ ds, P d) :
    P (absorbAll cur t ds).1 ∧ ∀ d ∈ (absorbAll cur t ds).2, P d := by
  induction ds generalizing cur with
  | nil => exact ⟨hcur, by simp [absorbAll]⟩
  | cons d ds ih =>
    unfold absorbAll
    by_cases h : (regions_overlap cur d t || regions_nearby cur d 50) = true
    · rw [if_pos h]
      exact ih (merge_two_regions cur d)
        (hP cur d hcur (hds d (List.mem_cons_self d ds)))
        fun x hx => hds x (List.mem_cons_of_mem d hx)
    · rw [if_neg h]
      obtain ⟨h1, h2⟩ := ih cur hcur fun x hx => hds x (List.mem_cons_of_mem d hx)
      refine ⟨h1, fun x hx => ?_⟩
      rcases List.mem_cons.mp hx with rfl | hx
      · exact hds x (List.mem_cons_self x ds)
      · exact h2 x hx

theorem greedyMergeFuel_preserves (P : Detection → Prop)
    (hP : ∀ r1 r2, P r1 → P r2 → P (merge_two_regions r1 r2))
    (t : Rat) (fuel : Nat) (l : List Detection) (hl : ∀ d ∈ l, P d) :
    ∀ m ∈ greedyMergeFuel t fuel l, P m := by
  induction fuel generalizing l with
  | zero => simp [greedyMergeFuel]
  | succ fuel ih =>
    cases l with
    | nil => simp [greedyMergeFuel]
    | cons d ds =>
      unfold greedyMergeFuel
      intro m hm
      obtain ⟨h1, h2⟩ := absorbAll_preserves P hP t d ds
        (hl d (List.mem_cons_self d ds))
        fun x hx => hl x (List.mem_cons_of_mem d hx)
      rcases List.mem_cons.mp hm with rfl | hm
      · exact h1
      · exact ih (absorbAll d t ds).2 h2 m hm

theorem greedyMergeFuel_source (t : Rat) (fuel : Nat) (l : List Detection) :
    ∀ m ∈ greedyMergeFuel t fuel l, m.source = none ∨ m ∈ l := by
  induction fuel generalizing l with
  | zero => simp [greedyMergeFuel]
  | succ fuel ih =>
    cases l with
    | nil => simp [greedyMergeFuel]
    | cons d ds =>
      unfold greedyMergeFuel
      intro m hm
      rcases List.mem_cons.mp hm with rfl | hm
      · rcases absorbAll_fst_eq_or_sourceless t d ds with heq | hsrc
        · exact Or.inr (by rw [heq]; exact List.mem_cons_self d ds)
        · exact Or.inl hsrc
      · rcases ih (absorbAll d t ds).2 m hm with hsrc | hmem
        · exact Or.inl hsrc
        · exact Or.inr (List.mem_cons_of_mem d (absorbAll_sub t d ds hmem))

theorem mem_merge_overlapping_regions (P : Detection → Prop)
    (hP : ∀ r1 r2, P r1 → P r2 → P (merge_two_regions r1 r2))
    (l : List Detection) (t : Rat) (hl : ∀ d ∈ l, P d) :
    ∀ m ∈ merge_overlapping_regions l t, P m := by
  unfold merge_overlapping_regions
  refine greedyMergeFuel_preserves P hP t _ _ fun d hd => hl d ?_
  exact (List.perm_insertionSort sortKeyGE l).mem_iff.mp hd

theorem bbox_mem_of_mem_cropAll (img_width img_height : Int)
    (merged : List Detection) (r : CroppedRegion)
    (hr : r ∈ cropAll img_width img_height merged) : r.bbox ∈ merged := by
  unfold cropAll at hr
  obtain ⟨p, hp, hcrop⟩ := List.mem_filterMap.mp hr
  obtain ⟨rect, _, hrect⟩ := Option.map_eq_some'.mp hcrop
  have hbbox : r.bbox = p.2 := by rw [← hrect]
  obtain ⟨_, hx⟩ := List.mem_enum hp
  rw [hbbox, hx]
  exact List.getElem_mem _

/-! ## Claim theorems -/

/-- C3 (counterexample): for an undecodable image the public entry point
`extract_number_regions_from_image` returns the normal empty result list —
contradicting the claim that the decode failure is surfaced to the caller
rather than the entry point returning a normal result such as an empty
list. -/
theorem undecodable_image_yields_normal_empty_list :
    extract_number_regions_from_image none = [] := rfl

/-- C3 (amended): an undecodable image makes `detect_number_regions` fail
with the error "Could not read image", but the public entry point
`extract_number_regions_from_image` catches every failure and returns an
empty list to its caller; the error is not surfaced. -/
theorem decode_failure_caught_not_surfaced :
    detect_number_regions none = Except.error "Could not read image" ∧
    extract_number_regions_from_image none = [] :=
  ⟨rfl, rfl⟩

/-- C4: the fallback pools influence the canonical set exactly when the
first merge pass (threshold 0.2 over the primary detectors' pool) is empty,
in which case the canonical set is the merge of the full raw pool plus the
fallback detections at threshold 0.1; when the first pass is non-empty the
result is the first pass and is independent of the fallback detectors'
output. -/
theorem fallback_iff_first_merge_empty (img : LoadedImage) :
    mergedDetections img =
      (if merge_overlapping_regions (primaryPool img) (1/5) = [] then
        merge_overlapping_regions
          (primaryPool img ++ img.textLikePool ++ img.gridPool) (1/10)
      else merge_overlapping_regions (primaryPool img) (1/5)) ∧
    (merge_overlapping_regions (primaryPool img) (1/5) ≠ [] →
      ∀ tl gr : List Detection,
        mergedDetections { img with textLikePool := tl, gridPool := gr } =
          mergedDetections img) := by
  constructor
  · unfold mergedDetections
    by_cases h : merge_overlapping_regions (primaryPool img) (1/5) = []
    · simp [h]
    · simp [h]
  · intro hne tl gr
    have hp : primaryPool { img with textLikePool := tl, gridPool := gr } =
        primaryPool img := rfl
    unfold mergedDetections
    rw [hp]
    dsimp only
    split_ifs with h
    · exact absurd (List.isEmpty_iff.mp h) hne
    · rfl

/-- C4 (witness): a concrete image whose first merge pass is non-empty, for
which swapping in arbitrary fallback pools leaves the canonical set
unchanged. -/
theorem fallback_iff_first_merge_empty_witness :
    merge_overlapping_regions (primaryPool imgA) (1/5) ≠ [] ∧
    mergedDetections
        { imgA with textLikePool := [tlDetection0], gridPool := [grDetection0] } =
      mergedDetections imgA :=
  ⟨by decide,
    (fallback_iff_first_merge_empty imgA).2 (by decide) [tlDetection0] [grDetection0]⟩

/-- C10: the dict built by `merge_two_regions` carries no `source` key, so
every member of the merger's canonical output either still is one of the raw
input detections (a seed that absorbed nothing) or has lost its `source`
field. -/
theorem merged_regions_lose_source (l : List Detection) (t : Rat)
    (r1 r2 : Detection) :
    (merge_two_regions r1 r2).source = none ∧
    ∀ d ∈ merge_overlapping_regions l t, d.source = none ∨ d ∈ l := by
  refine ⟨rfl, fun d hd => ?_⟩
  unfold merge_overlapping_regions at hd
  rcases greedyMergeFuel_source t _ _ d hd with h | h
  · exact Or.inl h
  · exact Or.inr ((List.perm_insertionSort sortKeyGE l).mem_iff.mp h)

/-- C10 (witness): merging the two overlapping raw detections `dA`, `dB`
yields a canonical detection without `source`. -/
theorem merged_regions_lose_source_witness :
    (merge_two_regions dA dB).source = none ∧
    ((⟨0, 0, 15, 10, 60, "1 2", none⟩ : Detection).source = none ∨
      (⟨0, 0, 15, 10, 60, "1 2", none⟩ : Detection) ∈ [dA, dB]) :=
  ⟨(merged_regions_lose_source [dA, dB] (1/5) dA dB).1,
    (merged_regions_lose_source [dA, dB] (1/5) dA dB).2 _ (by decide)⟩

/-- Behaviour of the merger on a two-element (sorted) pool: either the pair
matches (overlap or nearby) and is merged, or both pass through. -/
theorem greedy_pair (e1 e2 : Detection) (t : Rat) :
    greedyMergeFuel t 2 [e1, e2] =
      if (regions_overlap e1 e2 t || regions_nearby e1 e2 50) = true then
        [merge_two_regions e1 e2]
      else [e1, e2] := by
  by_cases h : (regions_overlap e1 e2 t || regions_nearby e1 e2 50) = true <;>
    simp [greedyMergeFuel, absorbAll, h]

/-- C1 (counterexample): with the three-detection pool below and threshold
0.2, the merger's greedy single pass absorbs the wide low-confidence
detection into the first seed after having already skipped the second
detection; the two members of the canonical output then overlap with ratio
1 > 0.2, refuting the claimed pairwise bound (the merge is a single greedy
pass, not a closure). -/
theorem merger_output_pair_exceeds_threshold :
    merge_overlapping_regions
        [⟨0, 0, 10, 10, 100, "A", none⟩, ⟨60, 0, 10, 10, 80, "B", none⟩,
          ⟨5, 0, 100, 10, 50, "C", none⟩] (1/5) =
      [⟨0, 0, 105, 10, 100, "A C", none⟩, ⟨60, 0, 10, 10, 80, "B", none⟩] ∧
    (1/5 : Rat) <
      overlapRatio ⟨0, 0, 105, 10, 100, "A C", none⟩
        ⟨60, 0, 10, 10, 80, "B", none⟩ := by
  constructor
  · decide
  · decide

/-- C1 (amended): the pairwise overlap bound does hold for every pool of at
most two detections: whenever the merger leaves a two-element pool as two
members, their overlap ratio (in both orders) is at most the threshold.
With three or more detections a later absorption can grow a seed over an
already-skipped member, so the bound fails in general. -/
theorem merger_pair_pool_no_overlap (d1 d2 out1 out2 : Detection) (t : Rat)
    (ht : 0 ≤ t)
    (h : merge_overlapping_regions [d1, d2] t = [out1, out2]) :
    overlapRatio out1 out2 ≤ t ∧ overlapRatio out2 out1 ≤ t := by
  unfold merge_overlapping_regions at h
  by_cases hs : sortKeyGE d1 d2
  · have hsort : sortDetections [d1, d2] = [d1, d2] := by
      simp [sortDetections, List.insertionSort, List.orderedInsert, hs]
    rw [hsort] at h
    simp only [List.length_cons, List.length_nil] at h
    rw [greedy_pair] at h
    cases hchk : (regions_overlap d1 d2 t || regions_nearby d1 d2 50)
    · rw [hchk] at h
      simp only [Bool.false_eq_true, if_false] at h
      obtain ⟨h1, h2⟩ : d1 = out1 ∧ d2 = out2 := by simpa using h
      subst h1
      subst h2
      obtain ⟨hov, -⟩ := Bool.or_eq_false_iff.mp hchk
      exact ⟨overlapRatio_le_of_not_overlap d1 d2 t ht hov,
        overlapRatio_comm d2 d1 ▸ overlapRatio_le_of_not_overlap d1 d2 t ht hov⟩
    · rw [hchk] at h
      simp at h
  · have hsort : sortDetections [d1, d2] = [d2, d1] := by
      simp [sortDetections, List.insertionSort, List.orderedInsert, hs]
    rw [hsort] at h
    simp only [List.length_cons, List.length_nil] at h
    rw [greedy_pair] at h
    cases hchk : (regions_overlap d2 d1 t || regions_nearby d2 d1 50)
    · rw [hchk] at h
      simp only [Bool.false_eq_true, if_false] at h
      obtain ⟨h1, h2⟩ : d2 = out1 ∧ d1 = out2 := by simpa using h
      subst h1
      subst h2
      obtain ⟨hov, -⟩ := Bool.or_eq_false_iff.mp hchk
      exact ⟨overlapRatio_le_of_not_overlap d2 d1 t ht hov,
        overlapRatio_comm d1 d2 ▸ overlapRatio_le_of_not_overlap d2 d1 t ht hov⟩
    · rw [hchk] at h
      simp at h

/-- C1 (witness): a concrete two-element pool left unmerged, with both
overlap ratios at most 0.2. -/
theorem merger_pair_pool_no_overlap_witness :
    overlapRatio cW1 cW2 ≤ 1/5 ∧ overlapRatio cW2 cW1 ≤ 1/5 :=
  merger_pair_pool_no_overlap cW1 cW2 cW1 cW2 (1/5) (by decide) (by decide)

/-- C2 (counterexample): a pool on which the merger is not idempotent.  The
first run leaves two members, one of which (a seed grown by absorption)
fully overlaps the other; re-running the merger with the same threshold
merges them into a single member, so the output is not returned unchanged. -/
theorem merger_not_idempotent :
    merge_overlapping_regions
        (merge_overlapping_regions
          [⟨0, 0, 10, 10, 90, "x", none⟩, ⟨60, 0, 10, 10, 70, "y", none⟩,
            ⟨5, 0, 100, 10, 40, "z", none⟩] (1/5)) (1/5) ≠
      merge_overlapping_regions
        [⟨0, 0, 10, 10, 90, "x", none⟩, ⟨60, 0, 10, 10, 70, "y", none⟩,
          ⟨5, 0, 100, 10, 40, "z", none⟩] (1/5) := by
  decide

/-- C2 (amended): the merger is a fixed point on any list that is already
sorted by the descending key and in which no two members overlap above the
threshold or are nearby; in particular re-running it on its own output
returns the output unchanged whenever the first run performed no
absorption.  When the first run did absorb (as in the counterexample),
re-running can reorder or further merge the output. -/
theorem merger_fixed_point_of_sorted_separated (l : List Detection) (t : Rat)
    (hsort : List.Pairwise sortKeyGE l)
    (hsep : List.Pairwise
      (fun a b => (regions_overlap a b t || regions_nearby a b 50) = false) l) :
    merge_overlapping_regions l t = l := by
  have hs : sortDetections l = l := List.Sorted.insertionSort_eq hsort
  unfold merge_overlapping_regions
  rw [hs]
  clear hsort hs
  induction hsep with
  | nil => rfl
  | cons hhead htail ih =>
    rename_i a as
    show greedyMergeFuel t (as.length + 1) (a :: as) = a :: as
    unfold greedyMergeFuel
    rw [absorbAll_of_no_match t a as hhead]
    exact congrArg (a :: ·) ih

/-- C2 (witness): a concrete sorted, pairwise-separated two-element list on
which the merger is the identity. -/
theorem merger_fixed_point_of_sorted_separated_witness :
    merge_overlapping_regions [cV1, cV2] (1/5) = [cV1, cV2] :=
  merger_fixed_point_of_sorted_separated [cV1, cV2] (1/5) (by decide) (by decide)

/-- C5: the merger first sorts the pool by the descending key
`(confidence, width*height)` (the list it processes is a permutation of the
pool that is sorted by that key) and then runs the greedy pass seeded from
the head; each absorption via `merge_two_regions` produces the union
bounding box, the maximum of the two confidences, and the two `text` fields
joined by a single space (the Python `.strip()` is the identity here because
detector texts start and end with non-whitespace characters, which the two
hypotheses express). -/
theorem merger_sorts_and_unions (l : List Detection) (t : Rat)
    (r1 r2 : Detection)
    (h1 : firstCharSolid r1.text = true) (h2 : lastCharSolid r2.text = true) :
    merge_overlapping_regions l t =
      greedyMergeFuel t (sortDetections l).length (sortDetections l) ∧
    (sortDetections l).Perm l ∧
    List.Pairwise sortKeyGE (sortDetections l) ∧
    merge_two_regions r1 r2 =
      { x := min r1.x r2.x
        y := min r1.y r2.y
        width := max (r1.x + r1.width) (r2.x + r2.width) - min r1.x r2.x
        height := max (r1.y + r1.height) (r2.y + r2.height) - min r1.y r2.y
        confidence := max r1.confidence r2.confidence
        text := r1.text ++ " " ++ r2.text
        source := none } := by
  refine ⟨rfl, List.perm_insertionSort sortKeyGE l,
    List.sorted_insertionSort sortKeyGE l, ?_⟩
  unfold merge_two_regions
  rw [pyStrip_append_of_solid r1.text r2.text h1 h2]

/-- C5 (witness): the absorption equations at two concrete detections with
digit texts. -/
theorem merger_sorts_and_unions_witness :
    merge_two_regions cT1 cT2 =
      { x := min cT1.x cT2.x
        y := min cT1.y cT2.y
        width := max (cT1.x + cT1.width) (cT2.x + cT2.width) - min cT1.x cT2.x
        height := max (cT1.y + cT1.height) (cT2.y + cT2.height) - min cT1.y cT2.y
        confidence := max cT1.confidence cT2.confidence
        text := cT1.text ++ " " ++ cT2.text
        source := none } :=
  (merger_sorts_and_unions [cT1, cT2] (1/5) cT1 cT2 (by decide) (by decide)).2.2.2

/-- C6: whenever every raw detection handed to the pipeline lies fully
inside the parent image with positive dimensions, so does the bounding box
of every region in the pipeline's final output — in particular bounding
boxes produced by merging detections, since the union of two contained
boxes is contained. -/
theorem output_bboxes_in_bounds (img : LoadedImage)
    (hpool : ∀ d ∈ primaryPool img ++ img.textLikePool ++ img.gridPool,
      inBounds img.width img.height d) :
    ∀ r ∈ extract_number_regions_from_image (some img),
      inBounds img.width img.height r.bbox := by
  intro r hr
  have hmerge2 : ∀ r1 r2, inBounds img.width img.height r1 →
      inBounds img.width img.height r2 →
      inBounds img.width img.height (merge_two_regions r1 r2) := by
    intro r1 r2 hb1 hb2
    unfold inBounds at *
    unfold merge_two_regions
    dsimp only
    obtain ⟨hx1, hy1, hxw1, hyh1, hw1, hh1⟩ := hb1
    obtain ⟨hx2, hy2, hxw2, hyh2, hw2, hh2⟩ := hb2
    refine ⟨?_, ?_, ?_, ?_, ?_, ?_⟩ <;> omega
  have hr2 : r.bbox ∈ mergedDetections img := by
    have hre : extract_number_regions_from_image (some img) =
        cropAll img.width img.height (mergedDetections img) := rfl
    rw [hre] at hr
    exact bbox_mem_of_mem_cropAll _ _ _ r hr
  unfold mergedDetections at hr2
  dsimp only at hr2
  by_cases h : (merge_overlapping_regions (primaryPool img) (1/5)).isEmpty = true
  · rw [if_pos h] at hr2
    exact mem_merge_overlapping_regions _ hmerge2 _ _
      (by simpa [List.append_assoc] using hpool) r.bbox hr2
  · rw [if_neg h] at hr2
    refine mem_merge_overlapping_regions _ hmerge2 _ _ ?_ r.bbox hr2
    intro d hd
    exact hpool d (by simp [hd])

/-- C6 (witness): the single output region of the concrete image `imgB` has
its bounding box inside the 100x100 image. -/
theorem output_bboxes_in_bounds_witness :
    inBounds 100 100 cRegionB.bbox :=
  output_bboxes_in_bounds imgB (by decide) cRegionB (by decide)

/-- C7: the Model-Based Detector's per-row filter keeps a word-level OCR
result (at the confidence threshold 10 used by `detect_number_regions`) iff
its confidence is at least 10, its stripped text is non-empty and contains a
digit or an OCR-confusable character or an arithmetic/punctuation symbol,
and after padding by 15px per side clamped to image bounds both resulting
dimensions exceed 10; and the detector is exactly the row-wise filter
applied to the whole result list. -/
theorem ocr_filter_characterization (height width : Int) :
    (∀ rows, extract_number_regions height width 10 rows =
      rows.filterMap (processOcrRow height width 10)) ∧
    (∀ row : OcrRow,
      (processOcrRow height width 10 row).isSome ↔
        (10 ≤ row.conf ∧ pyStrip row.text ≠ "" ∧
          (has_numbers (pyStrip row.text) = true ∨
            has_math_symbols (pyStrip row.text) = true) ∧
          10 < min (width - max 0 (row.left - 15)) (row.width + 2 * 15) ∧
          10 < min (height - max 0 (row.top - 15)) (row.height + 2 * 15))) := by
  constructor
  · intro rows
    induction rows with
    | nil => rfl
    | cons row rest ih =>
      rw [List.filterMap_cons]
      cases h : processOcrRow height width 10 row <;>
        simp only [extract_number_regions, h, ih]
  · intro row
    unfold processOcrRow
    dsimp only
    by_cases hc : row.conf < 10 ∨ pyStrip row.text = ""
    · rw [if_pos hc]
      simp only [Option.isSome_none, Bool.false_eq_true, false_iff]
      rintro ⟨hconf, htext, -⟩
      rcases hc with hc | hc
      · exact absurd hconf (not_le.mpr hc)
      · exact htext hc
    · rw [if_neg hc]
      push_neg at hc
      obtain ⟨hconf, htext⟩ := hc
      by_cases hn : (has_numbers (pyStrip row.text) ||
          has_math_symbols (pyStrip row.text)) = true
      · rw [if_pos hn]
        by_cases hwh : 10 < min (width - max 0 (row.left - 15)) (row.width + 2 * 15) ∧
            10 < min (height - max 0 (row.top - 15)) (row.height + 2 * 15)
        · rw [if_pos hwh]
          simp only [Option.isSome_some, true_iff]
          refine ⟨hconf, htext, ?_, hwh.1, hwh.2⟩
          simpa using hn
        · rw [if_neg hwh]
          simp only [Option.isSome_none, Bool.false_eq_true, false_iff]
          rintro ⟨-, -, -, hw, hh⟩
          exact hwh ⟨hw, hh⟩
      · rw [if_neg hn]
        simp only [Option.isSome_none, Bool.false_eq_true, false_iff]
        rintro ⟨-, -, hnum, -, -⟩
        simp only [Bool.or_eq_true] at hn
        exact hn hnum

set_option maxRecDepth 20000 in
/-- C8 (counterexample): the concrete 15x16 patch `hwRegion` has standard
deviation exactly 15 (variance exactly 225) and satisfies every other
condition comfortably, so the claim — which requires the standard deviation
to be strictly greater than 15 — predicts rejection; the code accepts it,
because utils.py:309 rejects only `np.std(region) < 15`.  (Likewise the
aspect-ratio bounds at 0.2 and 8 are inclusive in the code, utils.py:300.) -/
theorem handwritten_boundary_accepted :
    is_potential_number_region hwRegion 15 16 1000 = true ∧
    pixelVariance hwRegion = 225 := by
  constructor
  · decide
  · decide

/-- C8 (amended): the Handwritten Detector accepts a candidate region iff
`15 ≤ w ≤ 500`, `15 ≤ h ≤ 100`, `100 ≤ area ≤ 5000`, aspect ratio within
`[0.2, 8]` inclusive, dark-pixel fraction within `[0.05, 0.8]` inclusive,
and standard deviation at least 15 (variance at least 225) — every boundary
of the filter is inclusive, since the code rejects only on strict
violations. -/
theorem handwritten_filter_characterization (region : List Nat)
    (width height : Int) (area : Rat) :
    is_potential_number_region region width height area = true ↔
      (15 ≤ width ∧ width ≤ 500 ∧ 15 ≤ height ∧ height ≤ 100 ∧
        100 ≤ area ∧ area ≤ 5000 ∧
        1/5 ≤ (width : Rat) / (height : Rat) ∧
        (width : Rat) / (height : Rat) ≤ 8 ∧
        1/20 ≤ darkPixelRatio region width height ∧
        darkPixelRatio region width height ≤ 4/5 ∧
        225 ≤ pixelVariance region) := by
  unfold is_potential_number_region
  dsimp only
  split_ifs with h1 h2 h3 h4 h5
  · simp only [Bool.false_eq_true, false_iff]
    rintro ⟨hw1, hw2, hh1, hh2, -⟩
    rcases h1 with h | h | h | h <;> omega
  · simp only [Bool.false_eq_true, false_iff]
    rintro ⟨-, -, -, -, ha1, ha2, -⟩
    rcases h2 with h | h <;> linarith
  · simp only [Bool.false_eq_true, false_iff]
    rintro ⟨-, -, -, -, -, -, hr1, hr2, -⟩
    rcases h3 with h | h <;> linarith
  · simp only [Bool.false_eq_true, false_iff]
    rintro ⟨-, -, -, -, -, -, -, -, hd1, hd2, -⟩
    rcases h4 with h | h <;> linarith
  · simp only [Bool.false_eq_true, false_iff]
    rintro ⟨-, -, -, -, -, -, -, -, -, -, hv⟩
    linarith
  · simp only [true_iff]
    push_neg at h1 h2 h3 h4 h5
    obtain ⟨k1, k2, k3, k4⟩ := h1
    obtain ⟨m1, m2⟩ := h2
    obtain ⟨n1, n2⟩ := h3
    obtain ⟨o1, o2⟩ := h4
    exact ⟨k1, k3, k2, k4, m1, m2, n1, n2, o1, o2, h5⟩

/-- C9 (counterexample): in a 100x20 image, the (height 20, width 30)
template matching at location (50, 0) with score 0.5 produces a padded box
of width 50 and height exactly 20; the claim says a candidate is discarded
exactly when a padded dimension is less than 20 — so this one should be
kept — but the code keeps only dimensions strictly greater than 20
(utils.py:344) and discards it. -/
theorem template_boundary_discarded :
    detect_by_template_matches 100 20 30 20 [(50, 0, 1/2)] = [] ∧
    (1:Rat)/10 ≤ 1/2 ∧
    min ((20:Int) - max 0 (0 - 10)) (20 + 2 * 10) = 20 := by
  refine ⟨by decide, by decide, by decide⟩

/-- C9 (amended): the Template Detector processes exactly the match
locations whose score is at least 0.1; a processed candidate is kept iff
both padded-and-clamped dimensions are strictly greater than 20 (i.e. it is
discarded exactly when a resulting dimension is at most 20), and every kept
detection has fixed confidence 30, `source = "template"` and text
`"template_match"`. -/
theorem template_detector_characterization (w h tw th x0 y0 : Int)
    (matchList : List (Int × Int × Rat)) :
    (∀ d, d ∈ detect_by_template_matches w h tw th matchList ↔
      ∃ p ∈ matchList, (1:Rat)/10 ≤ p.2.2 ∧
        templateCandidate w h tw th p.1 p.2.1 = some d) ∧
    ((templateCandidate w h tw th x0 y0).isSome ↔
      (20 < min (w - max 0 (x0 - 10)) (tw + 2 * 10) ∧
        20 < min (h - max 0 (y0 - 10)) (th + 2 * 10))) ∧
    (∀ d, templateCandidate w h tw th x0 y0 = some d →
      d.confidence = 30 ∧ d.source = some "template" ∧
        d.text = "template_match") := by
  refine ⟨?_, ?_, ?_⟩
  · intro d
    unfold detect_by_template_matches
    rw [List.mem_filterMap]
    constructor
    · rintro ⟨p, hp, hf⟩
      by_cases hs : (1:Rat)/10 ≤ p.2.2
      · rw [if_pos hs] at hf
        exact ⟨p, hp, hs, hf⟩
      · rw [if_neg hs] at hf
        exact absurd hf (by simp)
    · rintro ⟨p, hp, hs, hf⟩
      exact ⟨p, hp, by rw [if_pos hs]; exact hf⟩
  · unfold templateCandidate
    dsimp only
    split_ifs with hc
    · simpa using hc
    · simpa using hc
  · intro d
    unfold templateCandidate
    dsimp only
    split_ifs with hc
    · intro hd
      obtain rfl : _ = d := Option.some_inj.mp hd
      exact ⟨rfl, rfl, rfl⟩
    · intro hd
      exact absurd hd (by simp)

/-- C9 (witness): a concrete kept template candidate carrying the fixed
confidence, source and text. -/
theorem template_detector_characterization_witness :
    (⟨90, 90, 50, 40, 30, "template_match", some "template"⟩ :
        Detection).confidence = 30 ∧
    (⟨90, 90, 50, 40, 30, "template_match", some "template"⟩ :
        Detection).source = some "template" ∧
    (⟨90, 90, 50, 40, 30, "template_match", some "template"⟩ :
        Detection).text = "template_match" :=
  (template_detector_characterization 500 500 30 20 100 100 []).2.2 _ (by decide)
